import Mathlib

/-!
Shallow embedding of `SlicerTools.py`: a tool-adapter facade over a remote
scene-graph service (rpyc connection to 3D Slicer).  The remote service is
modelled by an `Env` record of response functions (including which remote
calls raise), and the observable behaviour of one facade object by a state
`St` carrying the remote display node's per-segment visibility, the open
batch-modification count, a wall-clock index, the structured log, and the
trace of remote calls issued.

Python exceptions are modelled by `Except`: an operation that may propagate
an exception returns `Except PyError String × St` (state changes made before
the raise persist, as in Python).  `center_view` catches every exception and
therefore returns a plain `String × St`.
-/

namespace SlicerTools

/-- Python exception values raised by the facade or the remote call layer.
`str(e)` is modelled by `PyError.text`. -/
inductive PyError where
  | valueError (msg : String)
  | typeError (msg : String)
  | remote (msg : String)
deriving DecidableEq, Repr

def PyError.text : PyError → String
  | .valueError m => m
  | .typeError m => m
  | .remote m => m

/-- Remote calls issued by the facade, recorded in order. -/
inductive Event where
  | getNodesByClassCall (className : String)
  | getNodeCall (nodeId : String)
  | getNodesByNameCall (nodeName : String)
  | startModifyCall
  | endModifyCall
  | setAllSegmentsVisibilityCall (visible : Bool)
  | setSegmentVisibilityCall (segmentId : String) (visible : Bool)
  | getLayoutManagerCall
  | resetFocalPointCall
  | fitSliceCall (viewName : String)
deriving DecidableEq, Repr

/-- A scene-graph node as seen through the attributes the facade reads:
`GetClassName()`, `IsA('vtkMRMLSegmentationNode')`, and whether
`GetDisplayNode()` returns a (truthy) display node. -/
structure MRMLNode where
  className : String
  isSegNode : Bool
  hasDisplay : Bool
deriving DecidableEq, Repr

/-- The remote service's responses.  Fields returning `Except String _`
model remote calls that may raise (the `String` is the exception text);
`setSegVis` returns `some msg` when `SetSegmentVisibility` raises. -/
structure Env where
  clock : ℕ → ℚ
  nodesByClass : String → List String
  visibleSegmentIds : String → List String
  segName : String → String
  segColor : String → ℚ × ℚ × ℚ
  nodesByName : String → List MRMLNode
  segIdByName : String → String
  setSegVis : String → Bool → Option String
  layoutManager : Except String Unit
  threeDWidget : Except String Bool
  resetFocal : Except String Unit
  sliceWidget : String → Except String Bool
  fitSlice : String → Except String Unit

/-- Observable state of one facade run: remote per-segment visibility (by
segment id), how many batch-modification regions are open, the wall-clock
read index, the structured log (operation name, duration), and the remote
call trace. -/
structure St where
  visibility : String → Bool
  openModify : ℕ
  clockIdx : ℕ
  log : List (String × ℚ)
  events : List Event

def St.init (vis : String → Bool) : St :=
  ⟨vis, 0, 0, [], []⟩

def emit (e : Event) (s : St) : St :=
  { s with events := s.events ++ [e] }

/-- Model of `time.time()`: read the wall clock and advance the read index. -/
def tick (env : Env) (s : St) : ℚ × St :=
  (env.clock s.clockIdx, { s with clockIdx := s.clockIdx + 1 })

def addLog (name : String) (d : ℚ) (s : St) : St :=
  { s with log := s.log ++ [(name, d)] }

/-- Four fixed decimal digits, used to render `{x:.4f}`. -/
def padDigits4 (n : ℕ) : String :=
  String.mk [Nat.digitChar (n / 1000 % 10), Nat.digitChar (n / 100 % 10),
    Nat.digitChar (n / 10 % 10), Nat.digitChar (n % 10)]

/-- Two fixed decimal digits, used to render `{x:.2f}`. -/
def padDigits2 (n : ℕ) : String :=
  String.mk [Nat.digitChar (n / 10 % 10), Nat.digitChar (n % 10)]

/-- Python `f"{q:.4f}"` on a rational value. -/
def fmt4 (q : ℚ) : String :=
  let n : ℤ := round (q * 10000)
  let m : ℕ := n.natAbs
  (if n < 0 then "-" else "") ++ toString (m / 10000) ++ "." ++ padDigits4 (m % 10000)

/-- Python `f"{q:.2f}"` on a rational value. -/
def fmt2 (q : ℚ) : String :=
  let n : ℤ := round (q * 100)
  let m : ℕ := n.natAbs
  (if n < 0 then "-" else "") ++ toString (m / 100) ++ "." ++ padDigits2 (m % 100)

/-- Rendering of one structured log entry, i.e. the f-string
`f"{name} executed in {toc - tic:.4f} seconds"` passed to `logging.info`. -/
def renderLog (e : String × ℚ) : String :=
  e.1 ++ " executed in " ++ fmt4 e.2 ++ " seconds"

/-- `get_node_by_class`: one remote query, then either a header line plus one
dashed line per node, or a single none-found line; logs and returns the
joined string. -/
def get_node_by_class (env : Env) (class_name : String) (s : St) : String × St :=
  let ts := tick env s
  let s1 := emit (.getNodesByClassCall class_name) ts.2
  let nodes := env.nodesByClass class_name
  let info : List String :=
    if nodes.isEmpty then
      ["No " ++ class_name ++ " nodes found in scene"]
    else
      (class_name ++ " nodes:") :: nodes.map (fun n => "- " ++ n)
  let ts2 := tick env s1
  let s2 := addLog "get_node_by_class" (ts2.1 - ts.1) ts2.2
  (String.intercalate "\n" info, s2)

/-- One entry built by the loop of `get_visible_segments`:
`f"{segment.GetName()} (Color: RGB({color[0]:.2f}, {color[1]:.2f}, {color[2]:.2f})"`
(the closing parenthesis of `RGB(` is missing in the source). -/
def segEntry (env : Env) (segmentId : String) : String :=
  let c := env.segColor segmentId
  env.segName segmentId ++ " (Color: RGB(" ++ fmt2 c.1 ++ ", " ++ fmt2 c.2.1 ++
    ", " ++ fmt2 c.2.2 ++ ")"

/-- `get_visible_segments`: resolve the node, read the visible segment ids,
build one entry per visible segment, join with commas and wrap in a
sentence naming the source node. -/
def get_visible_segments (env : Env) (segmentation_node : String) (s : St) : String × St :=
  let ts := tick env s
  let s1 := emit (.getNodeCall segmentation_node) ts.2
  let ids := env.visibleSegmentIds segmentation_node
  let info := ids.map (segEntry env)
  let msg := "The segmentation node " ++ segmentation_node ++
    " contains the following visible segments: " ++ String.intercalate "," info
  let ts2 := tick env s1
  let s2 := addLog "get_visible_segments" (ts2.1 - ts.1) ts2.2
  (msg, s2)

/-- `_get_segmentation_and_display_node`: name lookup, cardinality check
(raise `ValueError` unless exactly one match), segmentation-class check
(raise `TypeError`), display-node check (raise `ValueError`). -/
def _get_segmentation_and_display_node (env : Env) (segmentation_node_name : String)
    (s : St) : Except PyError MRMLNode × St :=
  let s1 := emit (.getNodesByNameCall segmentation_node_name) s
  let nodes := env.nodesByName segmentation_node_name
  match nodes with
  | [node] =>
    if node.isSegNode then
      if node.hasDisplay then
        (.ok node, s1)
      else
        (.error (.valueError ("Segmentation node \x27" ++ segmentation_node_name ++
          "\x27 has no display node")), s1)
    else
      (.error (.typeError ("Node \x27" ++ segmentation_node_name ++
        "\x27 is not a segmentation node. Found: " ++ node.className)), s1)
  | _ =>
    (.error (.valueError ("Expected exactly one node named \x27" ++
      segmentation_node_name ++ "\x27, found " ++ toString nodes.length)), s1)

/-- `set_all_segments_visibility`: resolve via the helper, then
StartModify / SetAllSegmentsVisibility / EndModify, log, and return the
confirmation string. -/
def set_all_segments_visibility (env : Env) (segmentation_node_name : String)
    (visible : Bool) (s : St) : Except PyError String × St :=
  let ts := tick env s
  match _get_segmentation_and_display_node env segmentation_node_name ts.2 with
  | (.error e, s1) => (.error e, s1)
  | (.ok _, s1) =>
    let s2 := emit .startModifyCall { s1 with openModify := s1.openModify + 1 }
    let s3 := emit (.setAllSegmentsVisibilityCall visible)
      { s2 with visibility := fun _ => visible }
    let s4 := emit .endModifyCall { s3 with openModify := s3.openModify - 1 }
    let ts2 := tick env s4
    let s5 := addLog "set_all_segments_visibility" (ts2.1 - ts.1) ts2.2
    (.ok ("All segments in " ++ segmentation_node_name ++ " are now " ++
      (if visible then "visible" else "hidden")), s5)

/-- The slice-view loop of `center_view` over `['Red', 'Yellow', 'Green']`:
look up each slice widget and, when it exists, fit its slice to the
background; any raise aborts the loop. -/
def centerLoop (env : Env) : List String → St → Except String Unit × St
  | [], s => (.ok (), s)
  | n :: rest, s =>
    match env.sliceWidget n with
    | .error m => (.error m, s)
    | .ok true =>
      match env.fitSlice n with
      | .error m => (.error m, s)
      | .ok _ => centerLoop env rest (emit (.fitSliceCall n) s)
    | .ok false => centerLoop env rest s

def sliceViewNames : List String := ["Red", "Yellow", "Green"]

/-- The `try` body of `center_view` (given the already-read `tic`): obtain
the layout manager, reset the 3D view's focal point when a 3D widget
exists, fit each existing named slice view, then log and return the
success string. -/
def center_view_try (env : Env) (tic : ℚ) (s : St) : Except String String × St :=
  let s1 := emit .getLayoutManagerCall s
  match env.layoutManager with
  | .error m => (.error m, s1)
  | .ok _ =>
    match env.threeDWidget with
    | .error m => (.error m, s1)
    | .ok exists3d =>
      let step1 : Except String Unit × St :=
        if exists3d then
          match env.resetFocal with
          | .error m => (.error m, s1)
          | .ok _ => (.ok (), emit .resetFocalPointCall s1)
        else
          (.ok (), s1)
      match step1 with
      | (.error m, s2) => (.error m, s2)
      | (.ok _, s2) =>
        match centerLoop env sliceViewNames s2 with
        | (.error m, s3) => (.error m, s3)
        | (.ok _, s3) =>
          let ts2 := tick env s3
          let s4 := addLog "center_view" (ts2.1 - tic) ts2.2
          (.ok "Successfully centered all views", s4)

/-- `center_view`: run the `try` body and catch every exception, turning it
into the string `"Error centering views: " ++ str(e)`.  The return type
`String × St` (no `Except`) is the model of "never raises". -/
def center_view (env : Env) (s : St) : String × St :=
  let ts := tick env s
  match center_view_try env ts.1 ts.2 with
  | (.ok r, s1) => (r, s1)
  | (.error m, s1) => ("Error centering views: " ++ m, s1)

/-- The per-segment loop of `set_segments_visibility`: resolve each name to
a segment id (an unknown name yields the remote sentinel, no check) and set
that segment's visibility; a raise aborts the loop with prior mutations
kept. -/
def setSegmentsLoop (env : Env) (visible : Bool) :
    List String → St → Except PyError Unit × St
  | [], s => (.ok (), s)
  | nm :: rest, s =>
    let segId := env.segIdByName nm
    let s1 := emit (.setSegmentVisibilityCall segId visible) s
    match env.setSegVis segId visible with
    | some m => (.error (.remote m), s1)
    | none =>
      setSegmentsLoop env visible rest
        { s1 with visibility := Function.update s1.visibility segId visible }

/-- `set_segments_visibility`: resolve via the helper, StartModify, set each
named segment's visibility, EndModify, call `center_view` (result
discarded), log, and return the confirmation string listing the requested
names. -/
def set_segments_visibility (env : Env) (segmentation_node_name : String)
    (segment_names : List String) (visible : Bool) (s : St) :
    Except PyError String × St :=
  let ts := tick env s
  match _get_segmentation_and_display_node env segmentation_node_name ts.2 with
  | (.error e, s1) => (.error e, s1)
  | (.ok _, s1) =>
    let s2 := emit .startModifyCall { s1 with openModify := s1.openModify + 1 }
    match setSegmentsLoop env visible segment_names s2 with
    | (.error e, s3) => (.error e, s3)
    | (.ok _, s3) =>
      let s4 := emit .endModifyCall { s3 with openModify := s3.openModify - 1 }
      let cv := center_view env s4
      let ts2 := tick env cv.2
      let s5 := addLog "set_segments_visibility" (ts2.1 - ts.1) ts2.2
      (.ok ("Segments " ++ String.intercalate ", " segment_names ++ " in " ++
        segmentation_node_name ++ " are now " ++
        (if visible then "visible" else "hidden")), s5)

/-- A string of the form `a ++ "." ++ b` with exactly `k` digits-characters
after the final separator, modelling "formatted to `k` decimal places". -/
def decimalPlaces (k : ℕ) (x : String) : Prop :=
  ∃ a b, x = a ++ "." ++ b ∧ b.length = k

theorem padDigits4_length (n : ℕ) : (padDigits4 n).length = 4 := rfl

theorem padDigits2_length (n : ℕ) : (padDigits2 n).length = 2 := rfl

theorem fmt4_decimalPlaces (q : ℚ) : decimalPlaces 4 (fmt4 q) :=
  ⟨(if (round (q * 10000) : ℤ) < 0 then "-" else "") ++
      toString ((round (q * 10000) : ℤ).natAbs / 10000),
    padDigits4 ((round (q * 10000) : ℤ).natAbs % 10000), rfl, padDigits4_length _⟩

theorem fmt2_decimalPlaces (q : ℚ) : decimalPlaces 2 (fmt2 q) :=
  ⟨(if (round (q * 100) : ℤ) < 0 then "-" else "") ++
      toString ((round (q * 100) : ℤ).natAbs / 100),
    padDigits2 ((round (q * 100) : ℤ).natAbs % 100), rfl, padDigits2_length _⟩

/-- Concrete remote service used to instantiate hypotheses of the claim
theorems: one segmentation node named `segnode`, two volume nodes, one
visible segment, every view widget present and every call succeeding. -/
def wEnv : Env where
  clock := fun i => (i : ℚ)
  nodesByClass := fun cn => if cn = "vtkMRMLVolumeNode" then ["vol1", "vol2"] else []
  visibleSegmentIds := fun nid => if nid = "seg" then ["id1"] else []
  segName := fun _ => "Liver"
  segColor := fun _ => (1/2, 0, 1)
  nodesByName := fun nm =>
    if nm = "segnode" then [⟨"vtkMRMLSegmentationNode", true, true⟩] else []
  segIdByName := fun nm => if nm = "A" then "idA" else ""
  setSegVis := fun _ _ => none
  layoutManager := .ok ()
  threeDWidget := .ok true
  resetFocal := .ok ()
  sliceWidget := fun _ => .ok true
  fitSlice := fun _ => .ok ()

def wSt : St := St.init (fun _ => true)

/-- C5: when the remote service returns an empty node collection for a class
name, `get_node_by_class` returns exactly the single line
`No <class_name> nodes found in scene`, with no header line. -/
theorem get_node_by_class_empty (env : Env) (class_name : String) (s : St)
    (h : env.nodesByClass class_name = []) :
    (get_node_by_class env class_name s).1 =
      "No " ++ class_name ++ " nodes found in scene" := by
  simp [get_node_by_class, h, String.intercalate, String.intercalate.go]

theorem get_node_by_class_empty_witness :
    wEnv.nodesByClass "vtkMRMLModelNode" = [] ∧
      (get_node_by_class wEnv "vtkMRMLModelNode" wSt).1 =
        "No " ++ "vtkMRMLModelNode" ++ " nodes found in scene" :=
  ⟨by decide, get_node_by_class_empty wEnv "vtkMRMLModelNode" wSt (by decide)⟩

/-- C6: when the remote service returns `N ≥ 1` nodes, `get_node_by_class`
returns the header line naming the class followed by exactly one line per
node, in the order the service returned them, each the node's display name
prefixed by a dash. -/
theorem get_node_by_class_nonempty (env : Env) (class_name : String) (s : St)
    (h : env.nodesByClass class_name ≠ []) :
    (get_node_by_class env class_name s).1 =
      String.intercalate "\n" ((class_name ++ " nodes:") ::
        (env.nodesByClass class_name).map (fun n => "- " ++ n)) ∧
    ((env.nodesByClass class_name).map (fun n => "- " ++ n)).length =
      (env.nodesByClass class_name).length := by
  constructor
  · simp [get_node_by_class, List.isEmpty_iff, h]
  · exact List.length_map _ _

theorem get_node_by_class_nonempty_witness :
    wEnv.nodesByClass "vtkMRMLVolumeNode" ≠ [] ∧
      ((get_node_by_class wEnv "vtkMRMLVolumeNode" wSt).1 =
        String.intercalate "\n" (("vtkMRMLVolumeNode" ++ " nodes:") ::
          (wEnv.nodesByClass "vtkMRMLVolumeNode").map (fun n => "- " ++ n)) ∧
      ((wEnv.nodesByClass "vtkMRMLVolumeNode").map (fun n => "- " ++ n)).length =
        (wEnv.nodesByClass "vtkMRMLVolumeNode").length) :=
  ⟨by decide, get_node_by_class_nonempty wEnv "vtkMRMLVolumeNode" wSt (by decide)⟩

/-- C8: for a segmentation node with zero visible segments,
`get_visible_segments` returns the full wrapping sentence naming the source
node with an empty segment-list interior after the colon. -/
theorem get_visible_segments_empty (env : Env) (nid : String) (s : St)
    (h : env.visibleSegmentIds nid = []) :
    (get_visible_segments env nid s).1 =
      "The segmentation node " ++ nid ++
        " contains the following visible segments: " := by
  simp [get_visible_segments, h, String.intercalate, String.intercalate.go]

theorem get_visible_segments_empty_witness :
    wEnv.visibleSegmentIds "other" = [] ∧
      (get_visible_segments wEnv "other" wSt).1 =
        "The segmentation node " ++ "other" ++
          " contains the following visible segments: " :=
  ⟨by decide, get_visible_segments_empty wEnv "other" wSt (by decide)⟩

/-- C7: for a segmentation node with at least one visible segment, the
output wraps one entry per visible segment, and each entry is
`Name (Color: RGB(r, g, b)` with the three channel values in order red,
green, blue, each formatted to exactly two decimal places (note the
missing closing parenthesis, as in the source). -/
theorem get_visible_segments_entry_format (env : Env) (nid : String) (s : St)
    (h : env.visibleSegmentIds nid ≠ []) :
    (get_visible_segments env nid s).1 =
      "The segmentation node " ++ nid ++
        " contains the following visible segments: " ++
        String.intercalate "," ((env.visibleSegmentIds nid).map (segEntry env)) ∧
    ∀ sid ∈ env.visibleSegmentIds nid,
      segEntry env sid = env.segName sid ++ " (Color: RGB(" ++
          fmt2 (env.segColor sid).1 ++ ", " ++ fmt2 (env.segColor sid).2.1 ++
          ", " ++ fmt2 (env.segColor sid).2.2 ++ ")" ∧
        decimalPlaces 2 (fmt2 (env.segColor sid).1) ∧
        decimalPlaces 2 (fmt2 (env.segColor sid).2.1) ∧
        decimalPlaces 2 (fmt2 (env.segColor sid).2.2) := by
  refine ⟨by simp [get_visible_segments], ?_⟩
  intro sid _
  exact ⟨rfl, fmt2_decimalPlaces _, fmt2_decimalPlaces _, fmt2_decimalPlaces _⟩

theorem get_visible_segments_entry_format_witness :
    wEnv.visibleSegmentIds "seg" ≠ [] ∧
      ((get_visible_segments wEnv "seg" wSt).1 =
        "The segmentation node " ++ "seg" ++
          " contains the following visible segments: " ++
          String.intercalate "," ((wEnv.visibleSegmentIds "seg").map (segEntry wEnv)) ∧
      ∀ sid ∈ wEnv.visibleSegmentIds "seg",
        segEntry wEnv sid = wEnv.segName sid ++ " (Color: RGB(" ++
            fmt2 (wEnv.segColor sid).1 ++ ", " ++ fmt2 (wEnv.segColor sid).2.1 ++
            ", " ++ fmt2 (wEnv.segColor sid).2.2 ++ ")" ∧
          decimalPlaces 2 (fmt2 (wEnv.segColor sid).1) ∧
          decimalPlaces 2 (fmt2 (wEnv.segColor sid).2.1) ∧
          decimalPlaces 2 (fmt2 (wEnv.segColor sid).2.2)) :=
  ⟨by decide, get_visible_segments_entry_format wEnv "seg" wSt (by decide)⟩

/-- C4: when the name lookup matches zero or two-or-more nodes, the helper
fails with a `ValueError` whose message contains the attempted name and the
actual number of matches, and does not proceed to the type or display-node
checks (the result depends on neither `isSegNode` nor `hasDisplay`). -/
theorem helper_cardinality_error (env : Env) (nm : String) (s : St)
    (h : (env.nodesByName nm).length ≠ 1) :
    _get_segmentation_and_display_node env nm s =
      (.error (.valueError ("Expected exactly one node named \x27" ++ nm ++
          "\x27, found " ++ toString (env.nodesByName nm).length)),
        emit (.getNodesByNameCall nm) s) ∧
    ∃ a b, "Expected exactly one node named \x27" ++ nm ++ "\x27, found " ++
        toString (env.nodesByName nm).length =
      a ++ nm ++ b ++ toString (env.nodesByName nm).length := by
  refine ⟨?_, "Expected exactly one node named \x27", "\x27, found ", rfl⟩
  unfold _get_segmentation_and_display_node
  rcases hl : env.nodesByName nm with _ | ⟨x, _ | ⟨y, t⟩⟩
  · simp [hl]
  · exact absurd (by rw [hl]; rfl) h
  · simp [hl]

theorem helper_cardinality_error_witness :
    (wEnv.nodesByName "nosuch").length ≠ 1 ∧
      (_get_segmentation_and_display_node wEnv "nosuch" wSt =
        (.error (.valueError ("Expected exactly one node named \x27" ++ "nosuch" ++
            "\x27, found " ++ toString (wEnv.nodesByName "nosuch").length)),
          emit (.getNodesByNameCall "nosuch") wSt) ∧
      ∃ a b, "Expected exactly one node named \x27" ++ "nosuch" ++ "\x27, found " ++
          toString (wEnv.nodesByName "nosuch").length =
        a ++ "nosuch" ++ b ++ toString (wEnv.nodesByName "nosuch").length) :=
  ⟨by decide, helper_cardinality_error wEnv "nosuch" wSt (by decide)⟩

theorem helper_resolves (env : Env) (nm : String) (node : MRMLNode) (s : St)
    (hres : env.nodesByName nm = [node]) (hseg : node.isSegNode = true)
    (hdisp : node.hasDisplay = true) :
    _get_segmentation_and_display_node env nm s =
      (.ok node, emit (.getNodesByNameCall nm) s) := by
  simp [_get_segmentation_and_display_node, hres, hseg, hdisp]

theorem set_all_visibility_result (env : Env) (nm : String) (node : MRMLNode)
    (v : Bool) (s : St)
    (hres : env.nodesByName nm = [node]) (hseg : node.isSegNode = true)
    (hdisp : node.hasDisplay = true) :
    ((set_all_segments_visibility env nm v s).2).visibility = fun _ => v := by
  simp [set_all_segments_visibility, helper_resolves env nm node _ hres hseg hdisp,
    tick, emit, addLog]

/-- C9: hiding all segments and then showing all segments (operation (d)
twice) leaves every segment visible, and the resulting per-segment
visibility state is identical to what a single `visible := true` call
produces from the all-visible baseline, independent of the starting
state. -/
theorem set_all_roundtrip (env : Env) (nm : String) (node : MRMLNode)
    (s sBase : St)
    (hres : env.nodesByName nm = [node]) (hseg : node.isSegNode = true)
    (hdisp : node.hasDisplay = true) (hb : ∀ id, sBase.visibility id = true) :
    (∀ id,
      ((set_all_segments_visibility env nm true
          (set_all_segments_visibility env nm false s).2).2).visibility id = true) ∧
    ((set_all_segments_visibility env nm true
        (set_all_segments_visibility env nm false s).2).2).visibility =
      ((set_all_segments_visibility env nm true sBase).2).visibility := by
  rw [set_all_visibility_result env nm node true _ hres hseg hdisp,
    set_all_visibility_result env nm node true sBase hres hseg hdisp]
  exact ⟨fun _ => rfl, rfl⟩

theorem set_all_roundtrip_witness :
    wEnv.nodesByName "segnode" = [⟨"vtkMRMLSegmentationNode", true, true⟩] ∧
    (MRMLNode.mk "vtkMRMLSegmentationNode" true true).isSegNode = true ∧
    (MRMLNode.mk "vtkMRMLSegmentationNode" true true).hasDisplay = true ∧
    (∀ id, (St.init fun _ => true).visibility id = true) ∧
    ((∀ id,
      ((set_all_segments_visibility wEnv "segnode" true
          (set_all_segments_visibility wEnv "segnode" false
            (St.init fun _ => false)).2).2).visibility id = true) ∧
    ((set_all_segments_visibility wEnv "segnode" true
        (set_all_segments_visibility wEnv "segnode" false
          (St.init fun _ => false)).2).2).visibility =
      ((set_all_segments_visibility wEnv "segnode" true
        (St.init fun _ => true)).2).visibility) :=
  ⟨by decide, rfl, rfl, fun _ => rfl,
    set_all_roundtrip wEnv "segnode" ⟨"vtkMRMLSegmentationNode", true, true⟩
      (St.init fun _ => false) (St.init fun _ => true)
      (by decide) rfl rfl (fun _ => rfl)⟩

theorem centerLoop_isOk (env : Env) (l : List String) (s : St)
    (h : ∀ n ∈ l, ∃ b, env.sliceWidget n = .ok b ∧
      (b = true → env.fitSlice n = .ok ())) :
    (centerLoop env l s).1 = .ok () := by
  induction l generalizing s with
  | nil => rfl
  | cons a t ih =>
    obtain ⟨b, hb, hf⟩ := h a (List.mem_cons_self a t)
    cases b with
    | false =>
      simp only [centerLoop, hb]
      exact ih _ fun n hn => h n (List.mem_cons_of_mem _ hn)
    | true =>
      simp only [centerLoop, hb, hf rfl]
      exact ih _ fun n hn => h n (List.mem_cons_of_mem _ hn)

theorem center_view_eq (env : Env) (s : St) :
    center_view env s =
      match center_view_try env (tick env s).1 (tick env s).2 with
      | (.ok r, s1) => (r, s1)
      | (.error m, s1) => ("Error centering views: " ++ m, s1) := rfl

theorem center_view_try_cases (env : Env) (tic : ℚ) (s : St) :
    (center_view_try env tic s).1 = .ok "Successfully centered all views" ∨
      ∃ m, (center_view_try env tic s).1 = .error m := by
  unfold center_view_try
  rcases env.layoutManager with m | u
  · right; exact ⟨m, rfl⟩
  · rcases env.threeDWidget with m | b
    · right; exact ⟨m, rfl⟩
    · cases b
      · rcases hcl : centerLoop env sliceViewNames (emit .getLayoutManagerCall s)
          with ⟨u | mu, s3⟩
        · right; exact ⟨u, by simp [hcl]⟩
        · left; simp [hcl]
      · rcases env.resetFocal with m | u2
        · right; exact ⟨m, rfl⟩
        · rcases hcl : centerLoop env sliceViewNames
              (emit .resetFocalPointCall (emit .getLayoutManagerCall s))
            with ⟨u | mu, s3⟩
          · right; exact ⟨u, by simp [hcl]⟩
          · left; simp [hcl]

theorem center_view_try_ok_result (env : Env) (tic : ℚ) (s : St)
    (hlm : env.layoutManager = .ok ())
    (b3 : Bool) (hb3 : env.threeDWidget = .ok b3)
    (hrf : b3 = true → env.resetFocal = .ok ())
    (hloop : ∀ n ∈ sliceViewNames, ∃ b, env.sliceWidget n = .ok b ∧
      (b = true → env.fitSlice n = .ok ())) :
    (center_view_try env tic s).1 = .ok "Successfully centered all views" := by
  cases b3 with
  | false =>
    rcases hcl : centerLoop env sliceViewNames (emit .getLayoutManagerCall s)
      with ⟨u | mu, s3⟩
    · have := centerLoop_isOk env sliceViewNames (emit .getLayoutManagerCall s) hloop
      rw [hcl] at this
      simp at this
    · simp [center_view_try, hlm, hb3, hcl]
  | true =>
    rcases hcl : centerLoop env sliceViewNames
        (emit .resetFocalPointCall (emit .getLayoutManagerCall s))
      with ⟨u | mu, s3⟩
    · have := centerLoop_isOk env sliceViewNames
        (emit .resetFocalPointCall (emit .getLayoutManagerCall s)) hloop
      rw [hcl] at this
      simp at this
    · simp [center_view_try, hlm, hb3, hrf rfl, hcl]

/-- C1: `center_view` never raises (its return type carries no exception):
its result is always either the fixed success string or an
`Error centering views: <message>` string; when the layout manager is
obtained and every existing view widget is reset/fitted successfully the
result is the fixed success string; and when the `try` body raises with
message `m` the result is exactly `"Error centering views: " ++ m`, not a
propagated exception. -/
theorem center_view_spec (env : Env) (s : St) :
    ((center_view env s).1 = "Successfully centered all views" ∨
      ∃ m, (center_view env s).1 = "Error centering views: " ++ m) ∧
    (env.layoutManager = .ok () →
      (∃ b3, env.threeDWidget = .ok b3 ∧ (b3 = true → env.resetFocal = .ok ())) →
      (∀ n ∈ sliceViewNames, ∃ b, env.sliceWidget n = .ok b ∧
        (b = true → env.fitSlice n = .ok ())) →
      (center_view env s).1 = "Successfully centered all views") ∧
    (∀ m s2, center_view_try env (tick env s).1 (tick env s).2 = (.error m, s2) →
      (center_view env s).1 = "Error centering views: " ++ m) := by
  refine ⟨?_, ?_, ?_⟩
  · rcases hct : center_view_try env (tick env s).1 (tick env s).2 with ⟨m | r, s1⟩
    · right
      exact ⟨m, by rw [center_view_eq, hct]⟩
    · left
      rcases center_view_try_cases env (tick env s).1 (tick env s).2 with hc | ⟨m, hc⟩
      · rw [hct] at hc
        simp at hc
        rw [center_view_eq, hct]
        exact hc
      · rw [hct] at hc
        simp at hc
  · intro hlm h3 hloop
    obtain ⟨b3, hb3, hrf⟩ := h3
    have h1 := center_view_try_ok_result env (tick env s).1 (tick env s).2 hlm b3 hb3 hrf hloop
    rcases hct : center_view_try env (tick env s).1 (tick env s).2 with ⟨m | r, s1⟩
    · rw [hct] at h1
      simp at h1
    · rw [hct] at h1
      simp at h1
      rw [center_view_eq, hct]
      exact h1
  · intro m s2 hct
    rw [center_view_eq, hct]

theorem center_view_spec_witness :
    wEnv.layoutManager = .ok () ∧
    (∃ b3, wEnv.threeDWidget = .ok b3 ∧ (b3 = true → wEnv.resetFocal = .ok ())) ∧
    (∀ n ∈ sliceViewNames, ∃ b, wEnv.sliceWidget n = .ok b ∧
      (b = true → wEnv.fitSlice n = .ok ())) ∧
    (center_view wEnv wSt).1 = "Successfully centered all views" :=
  ⟨rfl, ⟨true, rfl, fun _ => rfl⟩, fun n _ => ⟨true, rfl, fun _ => rfl⟩,
    (center_view_spec wEnv wSt).2.1 rfl ⟨true, rfl, fun _ => rfl⟩
      (fun n _ => ⟨true, rfl, fun _ => rfl⟩)⟩

def logsFor (op : String) (l : List (String × ℚ)) : List (String × ℚ) :=
  l.filter (fun e => e.1 = op)

theorem centerLoop_log (env : Env) (l : List String) (s : St) :
    ((centerLoop env l s).2).log = s.log := by
  induction l generalizing s with
  | nil => rfl
  | cons a t ih =>
    unfold centerLoop
    rcases env.sliceWidget a with m | b
    · rfl
    · cases b
      · exact ih s
      · rcases env.fitSlice a with m | u
        · rfl
        · exact ih (emit (.fitSliceCall a) s)

theorem helper_snd (env : Env) (nm : String) (s : St) :
    (_get_segmentation_and_display_node env nm s).2 =
      emit (.getNodesByNameCall nm) s := by
  unfold _get_segmentation_and_display_node
  rcases env.nodesByName nm with _ | ⟨x, _ | ⟨y, t⟩⟩
  · rfl
  · by_cases h1 : x.isSegNode <;> by_cases h2 : x.hasDisplay <;> simp [h1, h2]
  · rfl

theorem center_view_try_log_error (env : Env) (tic : ℚ) (s : St) (m : String)
    (s2 : St) (h : center_view_try env tic s = (.error m, s2)) :
    s2.log = s.log := by
  unfold center_view_try at h
  rcases hlm : env.layoutManager with mm | u <;> simp only [hlm] at h
  · obtain ⟨h1, h2⟩ := Prod.mk.injEq .. ▸ h
    rw [← h2]
    rfl
  · rcases h3 : env.threeDWidget with mm | b <;> simp only [h3] at h
    · obtain ⟨h1, h2⟩ := Prod.mk.injEq .. ▸ h
      rw [← h2]
      rfl
    · cases b
      · simp only [Bool.false_eq_true, if_false] at h
        rcases hcl : centerLoop env sliceViewNames (emit .getLayoutManagerCall s)
          with ⟨mu | u2, s3⟩ <;> simp only [hcl] at h
        · obtain ⟨h1, h2⟩ := Prod.mk.injEq .. ▸ h
          rw [← h2]
          have := centerLoop_log env sliceViewNames (emit .getLayoutManagerCall s)
          rw [hcl] at this
          exact this
        · simp at h
      · simp only [if_true] at h
        rcases hrf : env.resetFocal with mm | u2 <;> simp only [hrf] at h
        · obtain ⟨h1, h2⟩ := Prod.mk.injEq .. ▸ h
          rw [← h2]
          rfl
        · rcases hcl : centerLoop env sliceViewNames
              (emit .resetFocalPointCall (emit .getLayoutManagerCall s))
            with ⟨mu | u3, s3⟩ <;> simp only [hcl] at h
          · obtain ⟨h1, h2⟩ := Prod.mk.injEq .. ▸ h
            rw [← h2]
            have := centerLoop_log env sliceViewNames
              (emit .resetFocalPointCall (emit .getLayoutManagerCall s))
            rw [hcl] at this
            exact this
          · simp at h

theorem center_view_try_log_ok (env : Env) (tic : ℚ) (s : St) (r : String)
    (s2 : St) (h : center_view_try env tic s = (.ok r, s2)) :
    ∃ d, s2.log = s.log ++ [("center_view", d)] := by
  unfold center_view_try at h
  rcases hlm : env.layoutManager with mm | u <;> simp only [hlm] at h
  · simp at h
  · rcases h3 : env.threeDWidget with mm | b <;> simp only [h3] at h
    · simp at h
    · cases b
      · simp only [Bool.false_eq_true, if_false] at h
        rcases hcl : centerLoop env sliceViewNames (emit .getLayoutManagerCall s)
          with ⟨mu | u2, s3⟩ <;> simp only [hcl] at h
        · simp at h
        · have hl3 : s3.log = s.log := by
            have := centerLoop_log env sliceViewNames (emit .getLayoutManagerCall s)
            rw [hcl] at this
            simpa [emit] using this
          obtain ⟨h1, h2⟩ := Prod.mk.injEq .. ▸ h
          exact ⟨(tick env s3).1 - tic, by rw [← h2]; simp [addLog, tick, hl3]⟩
      · simp only [if_true] at h
        rcases hrf : env.resetFocal with mm | u2 <;> simp only [hrf] at h
        · simp at h
        · rcases hcl : centerLoop env sliceViewNames
              (emit .resetFocalPointCall (emit .getLayoutManagerCall s))
            with ⟨mu | u3, s3⟩ <;> simp only [hcl] at h
          · simp at h
          · have hl3 : s3.log = s.log := by
              have := centerLoop_log env sliceViewNames
                (emit .resetFocalPointCall (emit .getLayoutManagerCall s))
              rw [hcl] at this
              simpa [emit] using this
            obtain ⟨h1, h2⟩ := Prod.mk.injEq .. ▸ h
            exact ⟨(tick env s3).1 - tic, by rw [← h2]; simp [addLog, tick, hl3]⟩

theorem center_view_log (env : Env) (s : St) :
    ∃ t, ((center_view env s).2).log = s.log ++ t ∧
      ∀ e ∈ t, Prod.fst e = "center_view" := by
  rcases hct : center_view_try env (tick env s).1 (tick env s).2 with ⟨m | r, s1⟩
  · refine ⟨[], ?_, by simp⟩
    rw [center_view_eq, hct]
    simpa using center_view_try_log_error env _ _ m s1 hct
  · obtain ⟨d, hd⟩ := center_view_try_log_ok env _ _ r s1 hct
    refine ⟨[("center_view", d)], ?_, by simp⟩
    rw [center_view_eq, hct]
    simpa using hd

theorem setSegmentsLoop_log (env : Env) (v : Bool) (l : List String) (s : St) :
    ((setSegmentsLoop env v l s).2).log = s.log := by
  induction l generalizing s with
  | nil => rfl
  | cons a t ih =>
    rcases hsv : env.setSegVis (env.segIdByName a) v with _ | mm
    · simp only [setSegmentsLoop, hsv]
      exact ih _
    · simp only [setSegmentsLoop, hsv]
      rfl

theorem set_all_log (env : Env) (nm : String) (v : Bool) (s : St) (r : String)
    (s2 : St) (h : set_all_segments_visibility env nm v s = (.ok r, s2)) :
    ∃ d, s2.log = s.log ++ [("set_all_segments_visibility", d)] := by
  rcases hh : _get_segmentation_and_display_node env nm (tick env s).2
    with ⟨e | node, s1⟩
  · unfold set_all_segments_visibility at h
    simp only [hh] at h
    simp at h
  · have hs1 : s1 = emit (.getNodesByNameCall nm) (tick env s).2 := by
      have := helper_snd env nm (tick env s).2
      rw [hh] at this
      exact this
    unfold set_all_segments_visibility at h
    simp only [hh] at h
    obtain ⟨h1, h2⟩ := Prod.mk.injEq .. ▸ h
    refine ⟨env.clock (s.clockIdx + 1) - env.clock s.clockIdx, ?_⟩
    rw [← h2, hs1]
    simp [addLog, tick, emit]

theorem set_segments_log (env : Env) (nm : String) (ns : List String) (v : Bool)
    (s : St) (r : String) (s2 : St)
    (h : set_segments_visibility env nm ns v s = (.ok r, s2)) :
    ∃ d t, s2.log = (s.log ++ t) ++ [("set_segments_visibility", d)] ∧
      ∀ e ∈ t, Prod.fst e = "center_view" := by
  rcases hh : _get_segmentation_and_display_node env nm (tick env s).2
    with ⟨e | node, s1⟩
  · unfold set_segments_visibility at h
    simp only [hh] at h
    simp at h
  · have hs1 : s1 = emit (.getNodesByNameCall nm) (tick env s).2 := by
      have := helper_snd env nm (tick env s).2
      rw [hh] at this
      exact this
    unfold set_segments_visibility at h
    simp only [hh] at h
    split at h
    · simp at h
    · rename_i u s3 heq
      obtain ⟨h1, h2⟩ := Prod.mk.injEq .. ▸ h
      have hs3 : s3.log = s.log := by
        have := setSegmentsLoop_log env v ns
          (emit .startModifyCall { s1 with openModify := s1.openModify + 1 })
        rw [heq] at this
        rw [hs1] at this
        exact this
      obtain ⟨t, ht, hname⟩ :=
        center_view_log env (emit .endModifyCall { s3 with openModify := s3.openModify - 1 })
      refine ⟨(tick env (center_view env
          (emit .endModifyCall { s3 with openModify := s3.openModify - 1 })).2).1 -
        (tick env s).1, t, ?_, hname⟩
      rw [← h2]
      simp only [addLog, tick]
      rw [ht]
      simp [emit, hs3]

/-- The witness service with a layout-manager call that raises `boom`. -/
def envBoom : Env := { wEnv with layoutManager := .error "boom" }

/-- C2 counterexample: a `center_view` invocation whose layout-manager call
raises completes (it returns the formatted error string to its caller), yet
it emits zero completion log entries, not exactly one. -/
theorem center_view_error_path_no_log :
    (center_view envBoom wSt).1 = "Error centering views: " ++ "boom" ∧
    ((center_view envBoom wSt).2).log = [] := ⟨rfl, rfl⟩

/-- C2 (amended): every completing operation emits exactly one info-level
log entry carrying its own name and an elapsed duration rendered to four
decimal places — except the caught-error return path of `center_view`,
which returns its error string without emitting any log entry (only the
success path logs, because the source logs inside the `try` block before
`return`). -/
theorem one_log_entry_per_completion (env : Env) (s : St) (cn nid nm : String)
    (ns : List String) (v : Bool) :
    (∃ d, ((get_node_by_class env cn s).2).log =
      s.log ++ [("get_node_by_class", d)]) ∧
    (∃ d, ((get_visible_segments env nid s).2).log =
      s.log ++ [("get_visible_segments", d)]) ∧
    (∀ r s2, set_all_segments_visibility env nm v s = (.ok r, s2) →
      ∃ d, s2.log = s.log ++ [("set_all_segments_visibility", d)]) ∧
    (∀ r s2, set_segments_visibility env nm ns v s = (.ok r, s2) →
      ∃ d, logsFor "set_segments_visibility" s2.log =
        logsFor "set_segments_visibility" s.log ++ [("set_segments_visibility", d)]) ∧
    (∀ r s2, center_view_try env (tick env s).1 (tick env s).2 = (.ok r, s2) →
      ∃ d, ((center_view env s).2).log = s.log ++ [("center_view", d)]) ∧
    (∀ m s2, center_view_try env (tick env s).1 (tick env s).2 = (.error m, s2) →
      ((center_view env s).2).log = s.log) ∧
    (∀ e : String × ℚ, decimalPlaces 4 (fmt4 e.2) ∧
      renderLog e = e.1 ++ " executed in " ++ fmt4 e.2 ++ " seconds") := by
  refine ⟨⟨_, rfl⟩, ⟨_, rfl⟩, fun r s2 h => set_all_log env nm v s r s2 h,
    ?_, ?_, ?_, fun e => ⟨fmt4_decimalPlaces e.2, rfl⟩⟩
  · intro r s2 h
    obtain ⟨d, t, ht, hname⟩ := set_segments_log env nm ns v s r s2 h
    refine ⟨d, ?_⟩
    rw [ht]
    unfold logsFor
    rw [List.filter_append, List.filter_append]
    have h1 : t.filter (fun e => Prod.fst e = "set_segments_visibility") = [] := by
      rw [List.filter_eq_nil_iff]
      intro a ha
      rw [hname a ha]
      simp
    have h2 : ([(("set_segments_visibility" : String), d)]).filter
        (fun e => Prod.fst e = "set_segments_visibility") =
        [(("set_segments_visibility" : String), d)] := by simp
    rw [h1, h2, List.append_nil]
  · intro r s2 h
    obtain ⟨d, hd⟩ := center_view_try_log_ok env (tick env s).1 (tick env s).2 r s2 h
    refine ⟨d, ?_⟩
    rw [center_view_eq, h]
    exact hd
  · intro m s2 h
    rw [center_view_eq, h]
    exact center_view_try_log_error env (tick env s).1 (tick env s).2 m s2 h

theorem one_log_entry_per_completion_witness :
    set_all_segments_visibility wEnv "segnode" true wSt =
      (.ok ("All segments in " ++ "segnode" ++ " are now " ++ "visible"),
        (set_all_segments_visibility wEnv "segnode" true wSt).2) ∧
    ∃ d, ((set_all_segments_visibility wEnv "segnode" true wSt).2).log =
      wSt.log ++ [("set_all_segments_visibility", d)] :=
  ⟨rfl, (one_log_entry_per_completion wEnv wSt "c" "n" "segnode" [] true).2.2.1
    ("All segments in " ++ "segnode" ++ " are now " ++ "visible")
    (set_all_segments_visibility wEnv "segnode" true wSt).2 rfl⟩

theorem setSegmentsLoop_ok_events (env : Env) (v : Bool) (l : List String)
    (s : St) (u : Unit) (s3 : St)
    (h : setSegmentsLoop env v l s = (.ok u, s3)) :
    s3.events = s.events ++
      l.map (fun n => Event.setSegmentVisibilityCall (env.segIdByName n) v) := by
  induction l generalizing s with
  | nil =>
    simp only [setSegmentsLoop] at h
    obtain ⟨h1, h2⟩ := Prod.mk.injEq .. ▸ h
    rw [← h2]
    simp
  | cons a t ih =>
    rcases hsv : env.setSegVis (env.segIdByName a) v with _ | mm
    · simp only [setSegmentsLoop, hsv] at h
      rw [ih _ h]
      simp [emit]
    · simp only [setSegmentsLoop, hsv] at h
      simp at h

theorem centerLoop_events (env : Env) (l : List String) (s : St) :
    ∃ t, ((centerLoop env l s).2).events = s.events ++ t ∧
      ∀ e ∈ t, ∃ n, e = Event.fitSliceCall n := by
  induction l generalizing s with
  | nil => exact ⟨[], by simp [centerLoop], by simp⟩
  | cons a tl ih =>
    rcases hsw : env.sliceWidget a with m | b
    · exact ⟨[], by simp [centerLoop, hsw], by simp⟩
    · cases b
      · simp only [centerLoop, hsw]
        exact ih s
      · rcases hfs : env.fitSlice a with m | u
        · exact ⟨[], by simp [centerLoop, hsw, hfs], by simp⟩
        · simp only [centerLoop, hsw, hfs]
          obtain ⟨t, ht, hall⟩ := ih (emit (.fitSliceCall a) s)
          refine ⟨Event.fitSliceCall a :: t, ?_, ?_⟩
          · rw [ht]
            simp [emit]
          · intro e he
            rcases List.mem_cons.mp he with he | he
            · exact ⟨a, he⟩
            · exact hall e he

theorem center_view_try_events (env : Env) (tic : ℚ) (s : St) :
    ∃ t, (((center_view_try env tic s).2)).events =
      s.events ++ (Event.getLayoutManagerCall :: t) ∧
      Event.getLayoutManagerCall ∉ t := by
  unfold center_view_try
  rcases env.layoutManager with m | u
  · exact ⟨[], by simp [emit], by simp⟩
  · rcases env.threeDWidget with m | b
    · exact ⟨[], by simp [emit], by simp⟩
    · cases b
      · obtain ⟨t, ht, hall⟩ := centerLoop_events env sliceViewNames
          (emit .getLayoutManagerCall s)
        refine ⟨t, ?_, ?_⟩
        · rcases hcl : centerLoop env sliceViewNames (emit .getLayoutManagerCall s)
            with ⟨mu | u2, s3⟩ <;> rw [hcl] at ht <;> simp [emit] at hcl <;>
            simp [hcl, addLog, tick, emit] <;> simpa [emit] using ht
        · intro hmem
          obtain ⟨n, hn⟩ := hall _ hmem
          cases hn
      · rcases env.resetFocal with m | u2
        · exact ⟨[], by simp [emit], by simp⟩
        · obtain ⟨t, ht, hall⟩ := centerLoop_events env sliceViewNames
            (emit .resetFocalPointCall (emit .getLayoutManagerCall s))
          refine ⟨Event.resetFocalPointCall :: t, ?_, ?_⟩
          · rcases hcl : centerLoop env sliceViewNames
                (emit .resetFocalPointCall (emit .getLayoutManagerCall s))
              with ⟨mu | u3, s3⟩ <;> rw [hcl] at ht <;> simp [emit] at hcl <;>
              simp [hcl, addLog, tick, emit] <;> simpa [emit] using ht
          · intro hmem
            rcases List.mem_cons.mp hmem with hm | hm
            · cases hm
            · obtain ⟨n, hn⟩ := hall _ hm
              cases hn

theorem center_view_snd (env : Env) (s : St) :
    (center_view env s).2 = (center_view_try env (tick env s).1 (tick env s).2).2 := by
  rcases hct : center_view_try env (tick env s).1 (tick env s).2 with ⟨m | r, s1⟩ <;>
    rw [center_view_eq, hct]

theorem center_view_events (env : Env) (s : St) :
    ∃ t, ((center_view env s).2).events =
      s.events ++ (Event.getLayoutManagerCall :: t) ∧
      Event.getLayoutManagerCall ∉ t := by
  obtain ⟨t, ht, hn⟩ := center_view_try_events env (tick env s).1 (tick env s).2
  exact ⟨t, by rw [center_view_snd]; simpa [tick] using ht, hn⟩

/-- C3: whenever `set_segments_visibility` completes normally, its remote
call trace consists of the name lookup, `StartModify`, one
`SetSegmentVisibility` call per requested segment name in order (whatever
segment id each name resolved to, including the sentinel for unknown
names), `EndModify`, and then the events of exactly one `center_view`
invocation: the unique layout-manager call comes after every per-segment
visibility change and after the batch region is closed, and it occurs
exactly once. -/
theorem set_segments_triggers_center_once (env : Env) (nm : String)
    (ns : List String) (v : Bool) (s : St) (r : String) (s2 : St)
    (h : set_segments_visibility env nm ns v s = (.ok r, s2)) :
    ∃ t,
      s2.events = s.events ++
        ([Event.getNodesByNameCall nm, Event.startModifyCall] ++
          ns.map (fun n => Event.setSegmentVisibilityCall (env.segIdByName n) v) ++
          [Event.endModifyCall] ++ (Event.getLayoutManagerCall :: t)) ∧
      Event.getLayoutManagerCall ∉ t ∧
      ([Event.getNodesByNameCall nm, Event.startModifyCall] ++
        ns.map (fun n => Event.setSegmentVisibilityCall (env.segIdByName n) v) ++
        [Event.endModifyCall] ++ (Event.getLayoutManagerCall :: t)).count
          Event.getLayoutManagerCall = 1 := by
  rcases hh : _get_segmentation_and_display_node env nm (tick env s).2
    with ⟨e | node, s1⟩
  · unfold set_segments_visibility at h
    simp only [hh] at h
    simp at h
  · have hs1 : s1 = emit (.getNodesByNameCall nm) (tick env s).2 := by
      have := helper_snd env nm (tick env s).2
      rw [hh] at this
      exact this
    unfold set_segments_visibility at h
    simp only [hh] at h
    split at h
    · simp at h
    · rename_i u s3 heq
      obtain ⟨h1, h2⟩ := Prod.mk.injEq .. ▸ h
      have hs3 : s3.events = s.events ++
          ([Event.getNodesByNameCall nm, Event.startModifyCall] ++
            ns.map (fun n => Event.setSegmentVisibilityCall (env.segIdByName n) v)) := by
        have := setSegmentsLoop_ok_events env v ns
          (emit .startModifyCall { s1 with openModify := s1.openModify + 1 }) u s3 heq
        rw [this, hs1]
        simp [emit, tick]
      obtain ⟨t, ht, hnt⟩ := center_view_events env
        (emit .endModifyCall { s3 with openModify := s3.openModify - 1 })
      have hcnt : (ns.map (fun n =>
          Event.setSegmentVisibilityCall (env.segIdByName n) v)).count
            Event.getLayoutManagerCall = 0 := by
        rw [List.count_eq_zero]
        intro hmem
        obtain ⟨n, _, hn⟩ := List.mem_map.mp hmem
        cases hn
      refine ⟨t, ?_, hnt, ?_⟩
      · rw [← h2]
        simp only [addLog, tick]
        rw [ht]
        simp [emit, hs3]
      · have hct : t.count Event.getLayoutManagerCall = 0 :=
          List.count_eq_zero.mpr hnt
        simp [List.count_append, List.count_cons, hcnt, hct]

theorem set_segments_triggers_center_once_witness :
    set_segments_visibility wEnv "segnode" ["A"] true wSt =
      (.ok ("Segments " ++ String.intercalate ", " ["A"] ++ " in " ++ "segnode" ++
        " are now " ++ "visible"),
        (set_segments_visibility wEnv "segnode" ["A"] true wSt).2) ∧
    ∃ t,
      ((set_segments_visibility wEnv "segnode" ["A"] true wSt).2).events =
        wSt.events ++
          ([Event.getNodesByNameCall "segnode", Event.startModifyCall] ++
            (["A"]).map (fun n =>
              Event.setSegmentVisibilityCall (wEnv.segIdByName n) true) ++
            [Event.endModifyCall] ++ (Event.getLayoutManagerCall :: t)) ∧
      Event.getLayoutManagerCall ∉ t ∧
      ([Event.getNodesByNameCall "segnode", Event.startModifyCall] ++
        (["A"]).map (fun n =>
          Event.setSegmentVisibilityCall (wEnv.segIdByName n) true) ++
        [Event.endModifyCall] ++ (Event.getLayoutManagerCall :: t)).count
          Event.getLayoutManagerCall = 1 :=
  ⟨rfl, set_segments_triggers_center_once wEnv "segnode" ["A"] true wSt
    ("Segments " ++ String.intercalate ", " ["A"] ++ " in " ++ "segnode" ++
      " are now " ++ "visible")
    (set_segments_visibility wEnv "segnode" ["A"] true wSt).2 rfl⟩

theorem setSegmentsLoop_fail (env : Env) (v : Bool) (pre : List String)
    (bad : String) (post : List String) (m : String) (s : St)
    (hpre : ∀ n ∈ pre, env.setSegVis (env.segIdByName n) v = none)
    (hbad : env.setSegVis (env.segIdByName bad) v = some m) :
    setSegmentsLoop env v (pre ++ bad :: post) s =
      (.error (.remote m),
        { s with
          visibility := pre.foldl
            (fun f n => Function.update f (env.segIdByName n) v) s.visibility,
          events := s.events ++
            (pre.map (fun n => Event.setSegmentVisibilityCall (env.segIdByName n) v) ++
              [Event.setSegmentVisibilityCall (env.segIdByName bad) v]) }) := by
  induction pre generalizing s with
  | nil =>
    simp only [List.nil_append, setSegmentsLoop, hbad]
    simp [emit]
  | cons a t ih =>
    have ha := hpre a (List.mem_cons_self a t)
    simp only [List.cons_append, setSegmentsLoop, ha, List.append_eq]
    rw [ih _ (fun n hn => hpre n (List.mem_cons_of_mem _ hn))]
    simp [emit]

/-- C10: when a per-segment visibility mutation raises partway through the
segment-name list, `set_segments_visibility` propagates the exception
(result is the error, not a string), never issues `EndModify`, never
invokes the center-view behaviour (no layout-manager call), emits no
completion log entry, leaves the batch-modification region open
(`openModify` stays incremented) and leaves the remote visibility state
partially mutated (exactly the names before the failing one applied). -/
theorem set_segments_abort_on_raise (env : Env) (nm : String) (node : MRMLNode)
    (pre : List String) (bad : String) (post : List String) (v : Bool) (s : St)
    (m : String)
    (hres : env.nodesByName nm = [node]) (hseg : node.isSegNode = true)
    (hdisp : node.hasDisplay = true)
    (hpre : ∀ n ∈ pre, env.setSegVis (env.segIdByName n) v = none)
    (hbad : env.setSegVis (env.segIdByName bad) v = some m) :
    set_segments_visibility env nm (pre ++ bad :: post) v s =
      (.error (.remote m),
        { visibility := pre.foldl
            (fun f n => Function.update f (env.segIdByName n) v) s.visibility,
          openModify := s.openModify + 1,
          clockIdx := s.clockIdx + 1,
          log := s.log,
          events := s.events ++
            ([Event.getNodesByNameCall nm, Event.startModifyCall] ++
              pre.map (fun n => Event.setSegmentVisibilityCall (env.segIdByName n) v) ++
              [Event.setSegmentVisibilityCall (env.segIdByName bad) v]) }) ∧
    Event.endModifyCall ∉
      ([Event.getNodesByNameCall nm, Event.startModifyCall] ++
        pre.map (fun n => Event.setSegmentVisibilityCall (env.segIdByName n) v) ++
        [Event.setSegmentVisibilityCall (env.segIdByName bad) v]) ∧
    Event.getLayoutManagerCall ∉
      ([Event.getNodesByNameCall nm, Event.startModifyCall] ++
        pre.map (fun n => Event.setSegmentVisibilityCall (env.segIdByName n) v) ++
        [Event.setSegmentVisibilityCall (env.segIdByName bad) v]) := by
  refine ⟨?_, ?_, ?_⟩
  · simp only [set_segments_visibility,
      helper_resolves env nm node (tick env s).2 hres hseg hdisp]
    split
    · rename_i e2 s3 heq
      have h2 := heq.symm.trans
        (setSegmentsLoop_fail env v pre bad post m _ hpre hbad)
      obtain ⟨he, hs⟩ := Prod.mk.injEq .. ▸ h2
      injection he with he2
      subst he2
      rw [hs]
      simp [emit, tick]
    · rename_i u s3 heq
      have h2 := heq.symm.trans
        (setSegmentsLoop_fail env v pre bad post m _ hpre hbad)
      simp at h2
  · intro hmem
    rcases List.mem_append.mp hmem with hm | hm
    · rcases List.mem_append.mp hm with hm2 | hm2
      · simp at hm2
      · obtain ⟨n, _, hn⟩ := List.mem_map.mp hm2
        cases hn
    · simp at hm
  · intro hmem
    rcases List.mem_append.mp hmem with hm | hm
    · rcases List.mem_append.mp hm with hm2 | hm2
      · simp at hm2
      · obtain ⟨n, _, hn⟩ := List.mem_map.mp hm2
        cases hn
    · simp at hm

/-- The witness service for the abort case: segment name `B` resolves to id
`idB`, whose visibility mutation raises `net down`; other mutations
succeed. -/
def envFail : Env :=
  { wEnv with
    segIdByName := fun nm => if nm = "A" then "idA" else if nm = "B" then "idB" else "",
    setSegVis := fun id _ => if id = "idB" then some "net down" else none }

theorem set_segments_abort_on_raise_witness :
    envFail.nodesByName "segnode" = [⟨"vtkMRMLSegmentationNode", true, true⟩] ∧
    (∀ n ∈ (["A"] : List String),
      envFail.setSegVis (envFail.segIdByName n) true = none) ∧
    envFail.setSegVis (envFail.segIdByName "B") true = some "net down" ∧
    (set_segments_visibility envFail "segnode" (["A"] ++ "B" :: ["C"]) true wSt =
      (.error (.remote "net down"),
        { visibility := (["A"] : List String).foldl
            (fun f n => Function.update f (envFail.segIdByName n) true) wSt.visibility,
          openModify := wSt.openModify + 1,
          clockIdx := wSt.clockIdx + 1,
          log := wSt.log,
          events := wSt.events ++
            ([Event.getNodesByNameCall "segnode", Event.startModifyCall] ++
              (["A"] : List String).map
                (fun n => Event.setSegmentVisibilityCall (envFail.segIdByName n) true) ++
              [Event.setSegmentVisibilityCall (envFail.segIdByName "B") true]) }) ∧
    Event.endModifyCall ∉
      ([Event.getNodesByNameCall "segnode", Event.startModifyCall] ++
        (["A"] : List String).map
          (fun n => Event.setSegmentVisibilityCall (envFail.segIdByName n) true) ++
        [Event.setSegmentVisibilityCall (envFail.segIdByName "B") true]) ∧
    Event.getLayoutManagerCall ∉
      ([Event.getNodesByNameCall "segnode", Event.startModifyCall] ++
        (["A"] : List String).map
          (fun n => Event.setSegmentVisibilityCall (envFail.segIdByName n) true) ++
        [Event.setSegmentVisibilityCall (envFail.segIdByName "B") true])) :=
  ⟨by decide, by decide, by decide,
    set_segments_abort_on_raise envFail "segnode"
      ⟨"vtkMRMLSegmentationNode", true, true⟩ ["A"] "B" ["C"] true wSt "net down"
      (by decide) rfl rfl (by decide) (by decide)⟩

end SlicerTools
